import Mathlib

/-!
Shallow embedding of the routing and identity-remapping core of an MCP
aggregation proxy (TypeScript sources under src/). JavaScript Map objects
are modelled as association lists: Map.set updates an existing key in
place and appends a fresh key, Map.get returns the stored value. Thrown
exceptions are modelled with Except, console logging with an explicit
list of log events. All definitions are executable.
-/

set_option autoImplicit false

/-- A connected backend client handle (interface ConnectedClient in
src/src/client.ts). The id field models JavaScript object identity: a
restart produces a new object carrying the same name. -/
structure ConnectedClient where
  name : String
  id : Nat
deriving DecidableEq, Repr

/-- JavaScript Map.get: the value stored at key k, if present. -/
def mapGet {α : Type} (m : List (String × α)) (k : String) : Option α :=
  (m.find? (fun p => p.1 == k)).map (fun p => p.2)

/-- JavaScript Map.set: update the entry for k in place when the key is
present, otherwise append a fresh entry. -/
def mapSet {α : Type} (m : List (String × α)) (k : String) (v : α) :
    List (String × α) :=
  if (mapGet m k).isSome then
    m.map (fun p => if p.1 == k then (k, v) else p)
  else m ++ [(k, v)]

theorem mapGet_cons {α : Type} (p : String × α) (m : List (String × α)) (k : String) :
    mapGet (p :: m) k = if p.1 == k then some p.2 else mapGet m k := by
  by_cases h : p.1 == k
  · simp [mapGet, List.find?, h]
  · simp only [Bool.not_eq_true] at h
    simp [mapGet, List.find?, h]

theorem mapGet_mapReplace_self {α : Type} (m : List (String × α)) (k : String) (v : α) :
    mapGet (m.map (fun p => if p.1 == k then (k, v) else p)) k =
      (mapGet m k).map (fun _ => v) := by
  simp only [beq_iff_eq]
  induction m with
  | nil => simp [mapGet]
  | cons p rest ih =>
    by_cases h : p.1 = k
    · simp [mapGet_cons, beq_iff_eq, h]
    · simp [mapGet_cons, beq_iff_eq, h, ih]

theorem mapGet_mapReplace_ne {α : Type} (m : List (String × α)) (k k' : String) (v : α)
    (hne : k' ≠ k) :
    mapGet (m.map (fun p => if p.1 == k then (k, v) else p)) k' = mapGet m k' := by
  simp only [beq_iff_eq]
  induction m with
  | nil => simp [mapGet]
  | cons p rest ih =>
    by_cases h : p.1 = k
    · have h1 : ¬ (k = k') := fun hc => hne hc.symm
      simp [mapGet_cons, beq_iff_eq, h, h1, ih]
    · simp [mapGet_cons, beq_iff_eq, h, ih]

theorem mapGet_append_single_self {α : Type} (m : List (String × α)) (k : String) (v : α)
    (h : mapGet m k = none) : mapGet (m ++ [(k, v)]) k = some v := by
  induction m with
  | nil => simp [mapGet_cons]
  | cons p rest ih =>
    rw [mapGet_cons] at h
    by_cases hp : p.1 = k
    · simp [hp] at h
    · simp only [beq_iff_eq, hp, if_false] at h
      simp [List.cons_append, mapGet_cons, beq_iff_eq, hp, ih h]

theorem mapGet_append_single_ne {α : Type} (m : List (String × α)) (k k' : String) (v : α)
    (hne : k' ≠ k) : mapGet (m ++ [(k, v)]) k' = mapGet m k' := by
  induction m with
  | nil =>
    have h1 : (k == k') = false := by
      rw [beq_eq_false_iff_ne]
      exact fun hc => hne hc.symm
    simp [mapGet, List.find?, h1]
  | cons p rest ih =>
    by_cases hp : p.1 = k'
    · simp [List.cons_append, mapGet_cons, beq_iff_eq, hp]
    · simp [List.cons_append, mapGet_cons, beq_iff_eq, hp, ih]

theorem mapGet_set_self {α : Type} (m : List (String × α)) (k : String) (v : α) :
    mapGet (mapSet m k v) k = some v := by
  unfold mapSet
  split
  · rename_i h
    rw [mapGet_mapReplace_self]
    cases hm : mapGet m k with
    | none => rw [hm] at h; simp at h
    | some w => simp
  · rename_i h
    apply mapGet_append_single_self
    cases hm : mapGet m k with
    | none => rfl
    | some w => rw [hm] at h; simp at h

theorem mapGet_set_ne {α : Type} (m : List (String × α)) (k k' : String) (v : α)
    (hne : k' ≠ k) : mapGet (mapSet m k v) k' = mapGet m k' := by
  unfold mapSet
  split
  · exact mapGet_mapReplace_ne m k k' v hne
  · exact mapGet_append_single_ne m k k' v hne

/-- Structured rendering of the errors thrown by the routing core. -/
inductive ProxyError where
  | duplicateTool (toolName : String)
  | unknownTool (toolName : String)
  | toolNotExposed (toolName : String)
  | toolHidden (toolName : String)
  | missingRequiredParameters
  | invalidArgumentsServerMustBeString
  | invalidArgumentsToolMustBeString
  | unknownSubtool (server tool customToolName : String)
deriving DecidableEq, Repr

/-- The ClientMaps class of src/src/mappers/client-maps.ts: three key
spaces; mapToolToClient throws when the tool name is already registered
(lines 38 to 43), the other two put operations overwrite. -/
structure ClientMapsSrc where
  toolToClientMap : List (String × ConnectedClient)
  resourceToClientMap : List (String × ConnectedClient)
  promptToClientMap : List (String × ConnectedClient)
deriving DecidableEq, Repr

def ClientMapsSrc.empty : ClientMapsSrc := ⟨[], [], []⟩

def ClientMapsSrc.getClientForTool (m : ClientMapsSrc) (toolName : String) :
    Option ConnectedClient :=
  mapGet m.toolToClientMap toolName

/-- mapToolToClient of src/src/mappers/client-maps.ts lines 38 to 43:
if the tool is already present, throw; otherwise store the mapping. -/
def ClientMapsSrc.mapToolToClient (m : ClientMapsSrc) (toolName : String)
    (client : ConnectedClient) : Except ProxyError ClientMapsSrc :=
  if (mapGet m.toolToClientMap toolName).isSome then
    .error (.duplicateTool toolName)
  else
    .ok { m with toolToClientMap := mapSet m.toolToClientMap toolName client }

/-- The updated ClientMaps class (the four key space version used by
client.ts, tool-call-handler.ts and custom-tool-service): every put
operation overwrites, and a registry of connected clients is kept as an
insertion ordered set of handles. -/
structure ClientMaps where
  toolToClientMap : List (String × ConnectedClient)
  resourceToClientMap : List (String × ConnectedClient)
  promptToClientMap : List (String × ConnectedClient)
  customToolToClientMap : List (String × ConnectedClient)
  connectedClients : List ConnectedClient
deriving DecidableEq, Repr

def ClientMaps.empty : ClientMaps := ⟨[], [], [], [], []⟩

def ClientMaps.getClientForTool (m : ClientMaps) (toolName : String) :
    Option ConnectedClient :=
  mapGet m.toolToClientMap toolName

def ClientMaps.getClientForResource (m : ClientMaps) (uri : String) :
    Option ConnectedClient :=
  mapGet m.resourceToClientMap uri

def ClientMaps.getClientForPrompt (m : ClientMaps) (name : String) :
    Option ConnectedClient :=
  mapGet m.promptToClientMap name

def ClientMaps.getClientForCustomTool (m : ClientMaps) (customToolKey : String) :
    Option ConnectedClient :=
  mapGet m.customToolToClientMap customToolKey

/-- mapToolToClient of the updated ClientMaps: update the existing
mapping instead of throwing an error. -/
def ClientMaps.mapToolToClient (m : ClientMaps) (toolName : String)
    (client : ConnectedClient) : ClientMaps :=
  { m with toolToClientMap := mapSet m.toolToClientMap toolName client }

def ClientMaps.mapCustomToolToClient (m : ClientMaps) (customToolKey : String)
    (client : ConnectedClient) : ClientMaps :=
  { m with customToolToClientMap := mapSet m.customToolToClientMap customToolKey client }

def ClientMaps.mapResourceToClient (m : ClientMaps) (resourceUri : String)
    (client : ConnectedClient) : ClientMaps :=
  { m with resourceToClientMap := mapSet m.resourceToClientMap resourceUri client }

def ClientMaps.mapPromptToClient (m : ClientMaps) (promptName : String)
    (client : ConnectedClient) : ClientMaps :=
  { m with promptToClientMap := mapSet m.promptToClientMap promptName client }

def ClientMaps.clearToolMap (m : ClientMaps) : ClientMaps :=
  { m with toolToClientMap := [] }

def ClientMaps.clearCustomToolMap (m : ClientMaps) : ClientMaps :=
  { m with customToolToClientMap := [] }

def ClientMaps.clearResourceMap (m : ClientMaps) : ClientMaps :=
  { m with resourceToClientMap := [] }

def ClientMaps.clearPromptMap (m : ClientMaps) : ClientMaps :=
  { m with promptToClientMap := [] }

/-- JavaScript Set.add on the registry of connected clients: append the
handle when it is not already a member. -/
def ClientMaps.addConnectedClient (m : ClientMaps) (client : ConnectedClient) :
    ClientMaps :=
  if client ∈ m.connectedClients then m
  else { m with connectedClients := m.connectedClients ++ [client] }

def ClientMaps.getClientByName (m : ClientMaps) (serverName : String) :
    Option ConnectedClient :=
  m.connectedClients.find? (fun c => c.name == serverName)

/-- The ClientMappingService class of
src/src/services/client-mapping-service.ts: the tool and the composite
subkey spaces, both put operations overwrite. -/
structure ClientMappingService where
  toolToClientMap : List (String × ConnectedClient)
  customToolToClientMap : List (String × ConnectedClient)
deriving DecidableEq, Repr

def ClientMappingService.mapToolToClient (s : ClientMappingService)
    (toolName : String) (client : ConnectedClient) : ClientMappingService :=
  { s with toolToClientMap := mapSet s.toolToClientMap toolName client }

def ClientMappingService.getClientForTool (s : ClientMappingService)
    (toolName : String) : Option ConnectedClient :=
  mapGet s.toolToClientMap toolName

def ClientMappingService.mapCustomToolToClient (s : ClientMappingService)
    (customToolKey : String) (client : ConnectedClient) : ClientMappingService :=
  { s with customToolToClientMap := mapSet s.customToolToClientMap customToolKey client }

def ClientMappingService.getClientForCustomTool (s : ClientMappingService)
    (customToolKey : String) : Option ConnectedClient :=
  mapGet s.customToolToClientMap customToolKey

/-- Concrete handles used by closed counterexample and witness statements. -/
def clientS1 : ConnectedClient := ⟨"s1", 0⟩

def clientS2 : ConnectedClient := ⟨"s2", 1⟩

/-- C1 counterexample: in the ClientMaps class of
src/src/mappers/client-maps.ts, putting the tool key t a second time does
not overwrite: mapToolToClient throws a duplicate registration error, so
the claim that every key space put never throws on a present key is false
for the tool-name key space of that class. -/
theorem c1_put_duplicate_tool_throws :
    (match ClientMapsSrc.empty.mapToolToClient "t" clientS1 with
     | .ok m => m.mapToolToClient "t" clientS2
     | .error e => .error e) = .error (.duplicateTool "t") := by rfl

/-- C1 (amended): in the updated four key space ClientMaps and in
ClientMappingService every put operation is total and overwrites: after two
puts of the same key, get returns the handle stored by the last put, for
the tool-name, resource-URI, prompt-name and composite-subkey spaces. The
ClientMaps class of src/src/mappers/client-maps.ts is the exception: its
mapToolToClient throws on a duplicate tool name (see the counterexample),
while its resource and prompt puts overwrite. -/
theorem c1_put_last_writer_wins (m : ClientMaps) (s : ClientMappingService)
    (k : String) (c1 c2 : ConnectedClient) :
    ((m.mapToolToClient k c1).mapToolToClient k c2).getClientForTool k = some c2
  ∧ ((m.mapResourceToClient k c1).mapResourceToClient k c2).getClientForResource k = some c2
  ∧ ((m.mapPromptToClient k c1).mapPromptToClient k c2).getClientForPrompt k = some c2
  ∧ ((m.mapCustomToolToClient k c1).mapCustomToolToClient k c2).getClientForCustomTool k = some c2
  ∧ ((s.mapToolToClient k c1).mapToolToClient k c2).getClientForTool k = some c2
  ∧ ((s.mapCustomToolToClient k c1).mapCustomToolToClient k c2).getClientForCustomTool k = some c2 := by
  refine ⟨?_, ?_, ?_, ?_, ?_, ?_⟩ <;>
    simp [ClientMaps.mapToolToClient, ClientMaps.mapResourceToClient,
      ClientMaps.mapPromptToClient, ClientMaps.mapCustomToolToClient,
      ClientMaps.getClientForTool, ClientMaps.getClientForResource,
      ClientMaps.getClientForPrompt, ClientMaps.getClientForCustomTool,
      ClientMappingService.mapToolToClient, ClientMappingService.mapCustomToolToClient,
      ClientMappingService.getClientForTool, ClientMappingService.getClientForCustomTool,
      mapGet_set_self]

/-- A tool catalog entry as far as the routing core inspects it: name and
human readable description. The description is modelled as a string. -/
structure Tool where
  name : String
  description : String
deriving DecidableEq, Repr

/-- One entry of exposedTools: either a plain original name or a pair of an
original and an exposed (renamed) name. -/
inductive ExposedToolEntry where
  | plain (name : String)
  | renamed (original exposed : String)
deriving DecidableEq, Repr

/-- The exposure relevant part of ServerConfig (src/src/models/config.ts):
optional allow list exposedTools and optional deny list hiddenTools. -/
structure ServerConfig where
  exposedTools : Option (List ExposedToolEntry)
  hiddenTools : Option (List String)
deriving DecidableEq, Repr

/-- The original names named by an exposedTools list, as computed by
serverConfig.exposedTools.map in tool-service.ts. -/
def exposedOriginalNames (ets : List ExposedToolEntry) : List String :=
  ets.map (fun e => match e with | .plain n => n | .renamed o _ => o)

/-- JavaScript a || b for an optional string: the fallback b is used when a
is absent or the empty string (both falsy). -/
def jsOrString (a : Option String) (b : String) : String :=
  match a with
  | some s => if s = "" then b else s
  | none => b

/-- A backend RPC failure. The code field is the optional JSON-RPC error
code carried by the thrown error object. -/
structure RpcError where
  code : Option Int
deriving DecidableEq, Repr

/-- Result of one backend tools/list discovery request. -/
inductive FetchOutcome where
  | ok (tools : List Tool)
  | fail (error : RpcError)
deriving DecidableEq, Repr

/-- Console error reports emitted by the discovery paths. -/
inductive LogEvent where
  | toolsFetchError (clientName : String) (code : Option Int)
  | promptsFetchError (clientName : String) (code : Option Int)
deriving DecidableEq, Repr

/-- prefixToolDescription of src/src/services/tool-service.ts lines 155 to
160: prefix the description with the client name marker. -/
def ToolService.prefixToolDescription (tool : Tool) (clientName : String) : Tool :=
  { tool with description := "[" ++ clientName ++ "] " ++ tool.description }

/-- fetchToolsFromClient of src/src/services/tool-service.ts lines 13 to 46.
The backend request result is passed in as an outcome. On success every tool
description is prefixed with the client name (an empty response is returned
as is); on failure the error is logged and the client contributes zero
tools, for every error code. -/
def ToolService.fetchToolsFromClient (connectedClient : ConnectedClient)
    (outcome : FetchOutcome) : List Tool × List LogEvent :=
  match outcome with
  | .ok toolsResponse =>
    if toolsResponse.length = 0 then ([], [])
    else (toolsResponse.map (fun t => ToolService.prefixToolDescription t connectedClient.name), [])
  | .fail e => ([], [.toolsFetchError connectedClient.name e.code])

/-- filterTools of src/src/services/tool-service.ts lines 111 to 130: when
exposedTools is present it is authoritative and hiddenTools is never
consulted; when only hiddenTools is present its members are excluded. -/
def ToolService.filterTools (tools : Option (List Tool))
    (serverConfig : Option ServerConfig) : List Tool :=
  match tools with
  | none => []
  | some ts =>
    match serverConfig with
    | none => ts
    | some cfg =>
      match cfg.exposedTools with
      | some ets => ts.filter (fun t => (exposedOriginalNames ets).contains t.name)
      | none =>
        match cfg.hiddenTools with
        | some hts => ts.filter (fun t => !(hts.contains t.name))
        | none => ts

/-- validateToolAccess of src/src/services/tool-service.ts lines 83 to 107:
the checked name is the original name when a remapping exists (JavaScript
||), and the exposedTools check is followed unconditionally by the
hiddenTools check. -/
def ToolService.validateToolAccess (toolName : String)
    (originalToolName : Option String) (serverConfig : ServerConfig) :
    Except ProxyError Unit :=
  let nameToCheck := jsOrString originalToolName toolName
  let exposedCheck : Except ProxyError Unit :=
    match serverConfig.exposedTools with
    | some ets =>
      if (exposedOriginalNames ets).contains nameToCheck then .ok ()
      else .error (.toolNotExposed toolName)
    | none => .ok ()
  match exposedCheck with
  | .error e => .error e
  | .ok _ =>
    match serverConfig.hiddenTools with
    | some hts =>
      if hts.contains nameToCheck then .error (.toolHidden toolName) else .ok ()
    | none => .ok ()

/-- The renamed allow list entry matching an original tool name, if any. -/
def findRenamedEntry (toolName : String) : List ExposedToolEntry → Option String
  | [] => none
  | .plain _ :: rest => findRenamedEntry toolName rest
  | .renamed o e :: rest => if o = toolName then some e else findRenamedEntry toolName rest

/-- Modelled from the spec: applyToolNameMapping is called by
handleListToolsRequest (src/src/handlers/tool-list-handler.ts line 63) but
its implementation file is absent from src; the behavior follows section 4.2
step 3 of the spec and the unit tests shipped with the repository: a tool
whose name equals the original field of a renamed allow list entry is
renamed to the exposed field, every other tool passes unchanged, and the
list passes unchanged when the configuration or its allow list is absent. -/
def ToolService.applyToolNameMapping (tools : List Tool)
    (serverConfig : Option ServerConfig) : List Tool :=
  match serverConfig with
  | none => tools
  | some cfg =>
    match cfg.exposedTools with
    | none => tools
    | some ets =>
      tools.map (fun t =>
        match findRenamedEntry t.name ets with
        | some e => { t with name := e }
        | none => t)

/-- JSON values, as far as the routing core inspects them. -/
inductive JsonValue where
  | str (s : String)
  | num (n : Int)
  | boolean (b : Bool)
  | null
  | obj (fields : List (String × JsonValue))
  | arr (elems : List JsonValue)

/-- A progress token carried in the request meta. -/
inductive ProgressToken where
  | str (s : String)
  | num (n : Int)
deriving DecidableEq, Repr

/-- The request finally sent to a backend: target handle, params.name,
params.arguments and the progress token passed through in params meta. -/
structure Dispatch where
  client : ConnectedClient
  callName : String
  arguments : JsonValue
  progressToken : Option ProgressToken

/-- executeToolCall of src/src/services/tool-service.ts lines 51 to 78: the
call name is originalToolName when present and nonempty (JavaScript ||),
otherwise the public toolName; arguments and meta are passed through
unchanged. The backend round trip itself is external, so the definition
returns the request that is sent. -/
def ToolService.executeToolCall (toolName : String) (args : JsonValue)
    (client : ConnectedClient) (meta : Option ProgressToken)
    (originalToolName : Option String) : Dispatch :=
  { client := client, callName := jsOrString originalToolName toolName,
    arguments := args, progressToken := meta }

/-- handleCustomToolCall of the CustomToolService in unnamed/part_006 lines
211 to 287: reject absent arguments, then arguments whose server or tool
field is not a string, resolve the composite subkey
customToolName:server:tool in the composite key space, and dispatch the
args field (defaulting to the empty object when absent) to the resolved
backend under the sub tool name, passing the progress token through. -/
def CustomToolService.handleCustomToolCall (customToolName : String)
    (requestArgs : Option (List (String × JsonValue)))
    (meta : Option ProgressToken)
    (customToolMap : List (String × ConnectedClient)) :
    Except ProxyError Dispatch :=
  match requestArgs with
  | none => .error .missingRequiredParameters
  | some fields =>
    match mapGet fields "server" with
    | some (.str server) =>
      match mapGet fields "tool" with
      | some (.str tool) =>
        let toolArgs : JsonValue :=
          match mapGet fields "args" with
          | some v => v
          | none => .obj []
        let customToolKey := customToolName ++ ":" ++ server ++ ":" ++ tool
        match mapGet customToolMap customToolKey with
        | none => .error (.unknownSubtool server tool customToolName)
        | some client =>
          .ok { client := client, callName := tool, arguments := toolArgs,
                progressToken := meta }
      | _ => .error .invalidArgumentsToolMustBeString
    | _ => .error .invalidArgumentsServerMustBeString

/-- handleToolCall of src/src/handlers/tool-call-handler.ts lines 24 to 86:
resolve the public name in the tool key space; dispatch to
handleCustomToolCall when the resolved handle is the distinguished custom
client (recognized by the name custom); otherwise look up the remapped
original name on the client, enforce the exposure policy with it when a
server config exists, and dispatch through executeToolCall. Environment
variable expansion is an external collaborator applied around the dispatch
and is not modelled. -/
def handleToolCall (toolName : String)
    (args : Option (List (String × JsonValue)))
    (meta : Option ProgressToken)
    (toolMap : List (String × ConnectedClient))
    (customToolMap : List (String × ConnectedClient))
    (toolMappingsOf : ConnectedClient → List (String × String))
    (mcpServers : String → Option ServerConfig) : Except ProxyError Dispatch :=
  match mapGet toolMap toolName with
  | none => .error (.unknownTool toolName)
  | some clientForTool =>
    if clientForTool.name = "custom" then
      CustomToolService.handleCustomToolCall toolName args meta customToolMap
    else
      let originalToolName := mapGet (toolMappingsOf clientForTool) toolName
      let expandedArgs : JsonValue :=
        match args with
        | some fields => .obj fields
        | none => .obj []
      match mcpServers clientForTool.name with
      | some serverConfig =>
        match ToolService.validateToolAccess toolName originalToolName serverConfig with
        | .error e => .error e
        | .ok _ =>
          .ok (ToolService.executeToolCall toolName expandedArgs clientForTool
                meta originalToolName)
      | none =>
        .ok (ToolService.executeToolCall toolName expandedArgs clientForTool
              meta originalToolName)

/-- C2 counterexample: with exposedTools = [X] and hiddenTools = [X, Y],
discovery does include X (allow list wins there), but the call time check
validateToolAccess rejects X with a hidden tool error, so the deny list is
not without effect at call time as the claim states. -/
theorem c2_deny_list_rejects_at_call_time :
    ToolService.filterTools (some [⟨"X", "dx"⟩, ⟨"Y", "dy"⟩])
        (some ⟨some [.plain "X"], some ["X", "Y"]⟩) = [⟨"X", "dx"⟩]
  ∧ ToolService.validateToolAccess "X" none ⟨some [.plain "X"], some ["X", "Y"]⟩
      = .error (.toolHidden "X") := ⟨rfl, rfl⟩

/-- C2 (amended): when a backend config carries both lists, the allow list
is authoritative at discovery time only: filterTools keeps a tool whose
name is on the allow list without consulting the deny list, but
validateToolAccess checks the deny list even after the allow list check
passes, so a call to a tool on both lists is rejected as hidden. -/
theorem c2_allow_list_discovery_deny_list_call (cfg : ServerConfig)
    (ets : List ExposedToolEntry) (hts : List String) (t : Tool) (ts : List Tool)
    (he : cfg.exposedTools = some ets) (hh : cfg.hiddenTools = some hts)
    (hexp : t.name ∈ exposedOriginalNames ets) (hhid : t.name ∈ hts)
    (hmem : t ∈ ts) :
    t ∈ ToolService.filterTools (some ts) (some cfg)
  ∧ ToolService.validateToolAccess t.name none cfg
      = .error (.toolHidden t.name) := by
  constructor
  · simp only [ToolService.filterTools, he]
    rw [List.mem_filter]
    exact ⟨hmem, List.elem_iff.mpr hexp⟩
  · simp only [ToolService.validateToolAccess, jsOrString, he, hh]
    rw [if_pos (List.elem_iff.mpr hexp)]
    simp only
    rw [if_pos (List.elem_iff.mpr hhid)]

/-- C2 witness. -/
theorem c2_allow_list_discovery_deny_list_call_witness :
    (⟨"X", "dx"⟩ : Tool) ∈ ToolService.filterTools (some [⟨"X", "dx"⟩])
        (some ⟨some [.plain "X"], some ["X"]⟩)
  ∧ ToolService.validateToolAccess "X" none ⟨some [.plain "X"], some ["X"]⟩
      = .error (.toolHidden "X") :=
  c2_allow_list_discovery_deny_list_call ⟨some [.plain "X"], some ["X"]⟩
    [.plain "X"] ["X"] ⟨"X", "dx"⟩ [⟨"X", "dx"⟩] rfl rfl (by decide) (by decide)
    (by decide)

/-- C7: every tool surviving a successful fetch carries the provenance
marker: the description shown to the caller is the client name in square
brackets, a space, then the original description; an entry with an empty
description gets exactly the marker followed by the single trailing
space. -/
theorem c7_description_provenance_marker (c : ConnectedClient) (ts : List Tool) :
    ((ToolService.fetchToolsFromClient c (.ok ts)).1).map Tool.description
      = ts.map (fun t => "[" ++ c.name ++ "] " ++ t.description)
  ∧ ∀ t ∈ ts, t.description = "" →
      (ToolService.prefixToolDescription t c.name).description
        = "[" ++ c.name ++ "] " := by
  constructor
  · cases ts with
    | nil => rfl
    | cons h rest =>
      simp [ToolService.fetchToolsFromClient, ToolService.prefixToolDescription]
  · intro t _ hdesc
    simp [ToolService.prefixToolDescription, hdesc]

/-- C7 witness. -/
theorem c7_description_provenance_marker_witness :
    (ToolService.prefixToolDescription ⟨"e", ""⟩ "F2").description = "[F2] " :=
  (c7_description_provenance_marker ⟨"F2", 1⟩ [⟨"e", ""⟩]).2 ⟨"e", ""⟩ (by decide) rfl

/-- Events of the discovery fan out, in execution order: the moment a
backend request is issued and the moment it settles (fulfilled or
rejected). -/
inductive DiscoveryEvent where
  | requestIssued (clientName : String)
  | responseSettled (clientName : String)
deriving DecidableEq, Repr

/-- The observable outcome of the backend collection loop: the aggregated
catalog, the error log, and the ordered trace of discovery events. -/
structure ListToolsResult where
  tools : List Tool
  logs : List LogEvent
  trace : List DiscoveryEvent
deriving DecidableEq, Repr

/-- The backend collection loop of handleListToolsRequest
(src/src/handlers/tool-list-handler.ts lines 43 to 76). Each backend
outcome is supplied as input data. The source loop awaits the discovery
request of one backend before starting the next iteration, so the trace
records the requestIssued event of a backend directly followed by its
responseSettled event. fetchToolsFromClient absorbs a failure into zero
tools plus a log entry, hence the surrounding try catch never fires and
the loop is total. The custom tool stage and the allTools accumulator
feeding it lie after the cited region and are not modelled here. -/
def handleListToolsLoop (clients : List (ConnectedClient × FetchOutcome))
    (serverConfigs : String → Option ServerConfig) : ListToolsResult :=
  match clients with
  | [] => ⟨[], [], []⟩
  | (c, outcome) :: rest =>
    let fetched := ToolService.fetchToolsFromClient c outcome
    let filteredTools := ToolService.filterTools (some fetched.1) (serverConfigs c.name)
    let mappedTools := ToolService.applyToolNameMapping filteredTools (serverConfigs c.name)
    let r := handleListToolsLoop rest serverConfigs
    ⟨mappedTools ++ r.tools, fetched.2 ++ r.logs,
      [.requestIssued c.name, .responseSettled c.name] ++ r.trace⟩

theorem filterTools_empty (cfg : Option ServerConfig) :
    ToolService.filterTools (some []) cfg = [] := by
  rcases cfg with _ | ⟨ets, hts⟩
  · rfl
  · rcases ets with _ | ets <;> rcases hts with _ | hts <;> rfl

theorem applyToolNameMapping_empty (cfg : Option ServerConfig) :
    ToolService.applyToolNameMapping [] cfg = [] := by
  rcases cfg with _ | ⟨ets, hts⟩
  · rfl
  · rcases ets with _ | ets <;> rfl

/-- C4: the backend collection loop is total (it returns a result instead
of raising): the catalog is exactly the concatenation, in backend order,
of the surviving entries of the successful backends, a failing backend
contributing zero entries; every backend failure is recorded in the log
only. -/
theorem c4_aggregation_absorbs_failures
    (clients : List (ConnectedClient × FetchOutcome))
    (serverConfigs : String → Option ServerConfig) :
    (handleListToolsLoop clients serverConfigs).tools
      = clients.flatMap (fun p =>
          match p.2 with
          | .fail _ => []
          | .ok ts =>
            ToolService.applyToolNameMapping
              (ToolService.filterTools
                (some (ToolService.fetchToolsFromClient p.1 (.ok ts)).1)
                (serverConfigs p.1.name))
              (serverConfigs p.1.name))
  ∧ ∀ c e, (c, FetchOutcome.fail e) ∈ clients →
      LogEvent.toolsFetchError c.name e.code
        ∈ (handleListToolsLoop clients serverConfigs).logs := by
  constructor
  · induction clients with
    | nil => rfl
    | cons p rest ih =>
      rcases p with ⟨c, outcome⟩
      cases outcome with
      | ok ts =>
        simp only [handleListToolsLoop, List.flatMap_cons, ih]
      | fail e =>
        simp only [handleListToolsLoop, List.flatMap_cons, ih,
          ToolService.fetchToolsFromClient, filterTools_empty,
          applyToolNameMapping_empty, List.nil_append]
  · induction clients with
    | nil => intro c e h; simp at h
    | cons p rest ih =>
      intro c e h
      rcases List.mem_cons.mp h with heq | htail
      · rcases p with ⟨c0, outcome0⟩
        injection heq with h1 h2
        subst h1
        rw [← h2]
        simp [handleListToolsLoop, ToolService.fetchToolsFromClient]
      · rcases p with ⟨c0, outcome0⟩
        have := ih c e htail
        simp [handleListToolsLoop]
        right
        exact this

/-- C4 witness: one failing and one succeeding backend. -/
theorem c4_aggregation_absorbs_failures_witness :
    LogEvent.toolsFetchError "F1" none
      ∈ (handleListToolsLoop
          [(⟨"F1", 0⟩, .fail ⟨none⟩), (⟨"F2", 1⟩, .ok [⟨"t2", "d"⟩])]
          (fun _ => none)).logs :=
  (c4_aggregation_absorbs_failures
      [(⟨"F1", 0⟩, .fail ⟨none⟩), (⟨"F2", 1⟩, .ok [⟨"t2", "d"⟩])]
      (fun _ => none)).2 ⟨"F1", 0⟩ ⟨none⟩ (by decide)

theorem responseSettled_mem_trace (clients : List (ConnectedClient × FetchOutcome))
    (serverConfigs : String → Option ServerConfig)
    (q : ConnectedClient × FetchOutcome) (hq : q ∈ clients) :
    DiscoveryEvent.responseSettled q.1.name
      ∈ (handleListToolsLoop clients serverConfigs).trace := by
  induction clients with
  | nil => simp at hq
  | cons p rest ih =>
    rcases List.mem_cons.mp hq with heq | htail
    · subst heq
      rcases q with ⟨c, outcome⟩
      simp [handleListToolsLoop]
    · rcases p with ⟨c, outcome⟩
      simp only [handleListToolsLoop, List.cons_append, List.nil_append,
        List.mem_cons]
      right; right
      exact ih htail

/-- C9 counterexample: with two backends, the discovery trace of the
backend collection loop issues the request to F2 only after the response
of F1 has settled, so the requests are not issued concurrently: the index
of the F2 requestIssued event is not below the index of the F1
responseSettled event. -/
theorem c9_second_request_waits_for_first :
    (handleListToolsLoop
        [(⟨"F1", 0⟩, .ok [⟨"t1", "d1"⟩]), (⟨"F2", 1⟩, .ok [⟨"t2", "d2"⟩])]
        (fun _ => none)).trace
      = [.requestIssued "F1", .responseSettled "F1",
         .requestIssued "F2", .responseSettled "F2"]
  ∧ ¬ ((handleListToolsLoop
        [(⟨"F1", 0⟩, .ok [⟨"t1", "d1"⟩]), (⟨"F2", 1⟩, .ok [⟨"t2", "d2"⟩])]
        (fun _ => none)).trace.indexOf (.requestIssued "F2")
      < (handleListToolsLoop
        [(⟨"F1", 0⟩, .ok [⟨"t1", "d1"⟩]), (⟨"F2", 1⟩, .ok [⟨"t2", "d2"⟩])]
        (fun _ => none)).trace.indexOf (.responseSettled "F1")) := by
  constructor
  · rfl
  · decide

/-- C9 (amended): the discovery requests are issued sequentially, one
backend at a time: in the trace, the request to a backend is issued only
after the traces of all earlier backends (each containing its settled
response) are complete; the loop still reaches every backend, whose
response settles before the merged catalog is produced. -/
theorem c9_discovery_is_sequential
    (pre post : List (ConnectedClient × FetchOutcome))
    (q : ConnectedClient × FetchOutcome)
    (serverConfigs : String → Option ServerConfig) :
    (handleListToolsLoop (pre ++ q :: post) serverConfigs).trace
      = (handleListToolsLoop pre serverConfigs).trace
        ++ [DiscoveryEvent.requestIssued q.1.name,
            DiscoveryEvent.responseSettled q.1.name]
        ++ (handleListToolsLoop post serverConfigs).trace
  ∧ ∀ r ∈ pre ++ q :: post,
      DiscoveryEvent.responseSettled r.1.name
        ∈ (handleListToolsLoop (pre ++ q :: post) serverConfigs).trace := by
  constructor
  · induction pre with
    | nil =>
      rcases q with ⟨c, outcome⟩
      simp [handleListToolsLoop]
    | cons p rest ih =>
      rcases p with ⟨c, outcome⟩
      simp only [List.cons_append, handleListToolsLoop, List.append_eq]
      rw [ih]
      simp [List.append_assoc]
  · intro r hr
    exact responseSettled_mem_trace (pre ++ q :: post) serverConfigs r hr

/-- C9 witness. -/
theorem c9_discovery_is_sequential_witness :
    DiscoveryEvent.responseSettled "F1"
      ∈ (handleListToolsLoop
          [(⟨"F1", 0⟩, .ok []), (⟨"F2", 1⟩, .ok [])] (fun _ => none)).trace :=
  (c9_discovery_is_sequential [(⟨"F1", 0⟩, .ok [])] [] ((⟨"F2", 1⟩, .ok []))
      (fun _ => none)).2 (⟨"F1", 0⟩, .ok []) (by decide)

/-- A prompt catalog entry: name and human readable description. -/
structure Prompt where
  name : String
  description : String
deriving DecidableEq, Repr

/-- Result of one backend prompts/list discovery request. -/
inductive PromptFetchOutcome where
  | ok (prompts : List Prompt)
  | fail (error : RpcError)
deriving DecidableEq, Repr

/-- The restart_server entry pushed unconditionally at the start of
handleListPromptsRequest (src/src/handlers/prompt-handlers.ts lines 93 to
104). -/
def restartServerPromptEntry : Prompt :=
  ⟨"restart_server", "Restart a specified server or all servers"⟩

/-- The observable outcome of handleListPromptsRequest: aggregated prompt
entries, error log, and the rebuilt prompt key space. -/
structure ListPromptsResult where
  prompts : List Prompt
  logs : List LogEvent
  promptMap : List (String × ConnectedClient)
deriving DecidableEq, Repr

/-- The backend loop of handleListPromptsRequest
(src/src/handlers/prompt-handlers.ts lines 106 to 140): for each backend in
turn, on success prefix the descriptions with the client name, register
every prompt name in the prompt key space and append the entries; on
failure log the error unless the thrown object carries the error code
-32601, which is ignored silently; in every case continue with the
remaining backends. -/
def promptsLoop (clients : List (ConnectedClient × PromptFetchOutcome))
    (st : ListPromptsResult) : ListPromptsResult :=
  match clients with
  | [] => st
  | (c, outcome) :: rest =>
    match outcome with
    | .ok ps =>
      let serverPrompts := ps.map (fun p =>
        { p with description := "[" ++ c.name ++ "] " ++ p.description })
      let m := serverPrompts.foldl (fun acc p => mapSet acc p.name c) st.promptMap
      promptsLoop rest ⟨st.prompts ++ serverPrompts, st.logs, m⟩
    | .fail e =>
      if e.code = some (-32601) then promptsLoop rest st
      else promptsLoop rest
        ⟨st.prompts, st.logs ++ [.promptsFetchError c.name e.code], st.promptMap⟩

/-- handleListPromptsRequest of src/src/handlers/prompt-handlers.ts lines 77
to 146: clear the prompt key space, add the restart_server entry, then run
the backend loop. -/
def handleListPromptsRequest
    (clients : List (ConnectedClient × PromptFetchOutcome)) : ListPromptsResult :=
  promptsLoop clients ⟨[restartServerPromptEntry], [], []⟩

/-- Where a prompts/get request is routed. -/
inductive PromptDispatch where
  | restartHandler
  | backend (c : ConnectedClient)
  | unknownPrompt (name : String)
deriving DecidableEq, Repr

/-- handleGetPromptRequest of src/src/handlers/prompt-handlers.ts lines 25
to 47: the restart_server name is intercepted before any lookup in the
prompt key space; any other name is resolved in the key space and an
unresolved name fails as unknown. -/
def handleGetPromptRequest (name : String)
    (promptMap : List (String × ConnectedClient)) : PromptDispatch :=
  if name = "restart_server" then .restartHandler
  else
    match mapGet promptMap name with
    | some c => .backend c
    | none => .unknownPrompt name

theorem promptsLoop_prompts_extended
    (clients : List (ConnectedClient × PromptFetchOutcome)) :
    ∀ st : ListPromptsResult, ∃ rest,
      (promptsLoop clients st).prompts = st.prompts ++ rest := by
  induction clients with
  | nil => intro st; exact ⟨[], by simp [promptsLoop]⟩
  | cons p clients ih =>
    intro st
    rcases p with ⟨c, outcome⟩
    cases outcome with
    | ok ps =>
      obtain ⟨r, hr⟩ := ih ⟨st.prompts ++ ps.map (fun p =>
        { p with description := "[" ++ c.name ++ "] " ++ p.description }), st.logs,
        (ps.map (fun p =>
          { p with description := "[" ++ c.name ++ "] " ++ p.description })).foldl
            (fun acc p => mapSet acc p.name c) st.promptMap⟩
      refine ⟨ps.map (fun p =>
        { p with description := "[" ++ c.name ++ "] " ++ p.description }) ++ r, ?_⟩
      simp only [promptsLoop]
      rw [hr]
      simp [List.append_assoc]
    | fail e =>
      by_cases hc : e.code = some (-32601)
      · obtain ⟨r, hr⟩ := ih st
        exact ⟨r, by simp only [promptsLoop, hc, if_pos, hr]⟩
      · obtain ⟨r, hr⟩ := ih ⟨st.prompts,
          st.logs ++ [.promptsFetchError c.name e.code], st.promptMap⟩
        exact ⟨r, by simp only [promptsLoop, hc, if_neg, hr, not_false_iff]⟩

/-- C10: the synthetic restart_server prompt exists independently of the
prompt key space: prompts/get with the name restart_server is routed to the
built in restart handler before any map lookup, for every map state
including one that maps restart_server to a backend, and every prompts/list
response contains the restart_server entry, also with zero backends. -/
theorem c10_restart_server_is_independent
    (promptMap : List (String × ConnectedClient))
    (clients : List (ConnectedClient × PromptFetchOutcome)) :
    handleGetPromptRequest "restart_server" promptMap = .restartHandler
  ∧ restartServerPromptEntry ∈ (handleListPromptsRequest clients).prompts
  ∧ (handleListPromptsRequest []).prompts = [restartServerPromptEntry] := by
  refine ⟨rfl, ?_, rfl⟩
  obtain ⟨r, hr⟩ := promptsLoop_prompts_extended clients ⟨[restartServerPromptEntry], [], []⟩
  rw [handleListPromptsRequest, hr]
  simp

/-- C6 counterexample: for the tools catalog kind,
fetchToolsFromClient logs every discovery failure, including one whose
error code is -32601, so the claim that a method not supported failure is
never logged fails for tools. -/
theorem c6_tools_method_not_supported_is_logged :
    (ToolService.fetchToolsFromClient ⟨"F1", 0⟩ (.fail ⟨some (-32601)⟩)).2
      = [.toolsFetchError "F1" (some (-32601))]
  ∧ (ToolService.fetchToolsFromClient ⟨"F1", 0⟩ (.fail ⟨some (-32601)⟩)).2 ≠ [] :=
  ⟨rfl, by decide⟩

/-- C6 (amended): the silent suppression of the method not supported code
-32601 applies to the prompts catalog kind only: there a -32601 failure
leaves the log and the entries untouched and the loop continues with the
remaining backends, any other failure is logged; for the tools catalog
kind every discovery failure is logged, whatever its code; in both kinds
the failing backend contributes zero entries. -/
theorem c6_method_not_supported_special_case (c : ConnectedClient)
    (e : RpcError) (rest : List (ConnectedClient × PromptFetchOutcome))
    (st : ListPromptsResult) :
    (e.code = some (-32601) →
      promptsLoop ((c, .fail e) :: rest) st = promptsLoop rest st)
  ∧ (e.code ≠ some (-32601) →
      promptsLoop ((c, .fail e) :: rest) st
        = promptsLoop rest
            ⟨st.prompts, st.logs ++ [.promptsFetchError c.name e.code],
              st.promptMap⟩)
  ∧ ToolService.fetchToolsFromClient c (.fail e)
      = ([], [.toolsFetchError c.name e.code]) := by
  refine ⟨?_, ?_, rfl⟩
  · intro h
    simp [promptsLoop, h]
  · intro h
    simp [promptsLoop, h]

/-- C6 witness. -/
theorem c6_method_not_supported_special_case_witness :
    promptsLoop [(⟨"F1", 0⟩, .fail ⟨some (-32601)⟩)]
        ⟨[restartServerPromptEntry], [], []⟩
      = promptsLoop [] ⟨[restartServerPromptEntry], [], []⟩ :=
  (c6_method_not_supported_special_case ⟨"F1", 0⟩ ⟨some (-32601)⟩ []
      ⟨[restartServerPromptEntry], [], []⟩).1 rfl

/-- The string value of a field of a JavaScript object, when the field is
present and holds a string (the typeof check of validateCustomToolArgs). -/
def lookupStringField (fields : List (String × JsonValue)) (k : String) :
    Option String :=
  match mapGet fields k with
  | some (.str s) => some s
  | _ => none

/-- C8: the complete call contract of handleCustomToolCall: absent
arguments fail; a missing or non string server field fails naming server; a
missing or non string tool field fails naming tool; an unresolved composite
subkey fails naming server, tool and composite name; otherwise the call is
dispatched to the resolved backend under the sub tool name with the args
field (the empty object when absent) and the progress token passed
through. -/
theorem c8_composite_call_contract (name : String)
    (fields : List (String × JsonValue)) (meta : Option ProgressToken)
    (m : List (String × ConnectedClient)) :
    CustomToolService.handleCustomToolCall name none meta m
      = .error .missingRequiredParameters
  ∧ (lookupStringField fields "server" = none →
      CustomToolService.handleCustomToolCall name (some fields) meta m
        = .error .invalidArgumentsServerMustBeString)
  ∧ (∀ server, lookupStringField fields "server" = some server →
      lookupStringField fields "tool" = none →
      CustomToolService.handleCustomToolCall name (some fields) meta m
        = .error .invalidArgumentsToolMustBeString)
  ∧ (∀ server tool, lookupStringField fields "server" = some server →
      lookupStringField fields "tool" = some tool →
      mapGet m (name ++ ":" ++ server ++ ":" ++ tool) = none →
      CustomToolService.handleCustomToolCall name (some fields) meta m
        = .error (.unknownSubtool server tool name))
  ∧ (∀ server tool client, lookupStringField fields "server" = some server →
      lookupStringField fields "tool" = some tool →
      mapGet m (name ++ ":" ++ server ++ ":" ++ tool) = some client →
      CustomToolService.handleCustomToolCall name (some fields) meta m
        = .ok { client := client, callName := tool,
                arguments := (match mapGet fields "args" with
                  | some v => v
                  | none => JsonValue.obj []),
                progressToken := meta }) := by
  refine ⟨rfl, ?_, ?_, ?_, ?_⟩
  · intro h
    unfold lookupStringField at h
    cases hs : mapGet fields "server" with
    | none => simp [CustomToolService.handleCustomToolCall, hs]
    | some v =>
      rw [hs] at h
      cases v with
      | str s => simp at h
      | num n => simp [CustomToolService.handleCustomToolCall, hs]
      | boolean b => simp [CustomToolService.handleCustomToolCall, hs]
      | null => simp [CustomToolService.handleCustomToolCall, hs]
      | obj o => simp [CustomToolService.handleCustomToolCall, hs]
      | arr a => simp [CustomToolService.handleCustomToolCall, hs]
  · intro server hserver htool
    unfold lookupStringField at hserver htool
    cases hs : mapGet fields "server" with
    | none => rw [hs] at hserver; simp at hserver
    | some v =>
      rw [hs] at hserver
      cases v with
      | str s =>
        simp only [Option.some.injEq] at hserver
        subst hserver
        cases ht : mapGet fields "tool" with
        | none => simp [CustomToolService.handleCustomToolCall, hs, ht]
        | some w =>
          rw [ht] at htool
          cases w with
          | str s2 => simp at htool
          | num n => simp [CustomToolService.handleCustomToolCall, hs, ht]
          | boolean b => simp [CustomToolService.handleCustomToolCall, hs, ht]
          | null => simp [CustomToolService.handleCustomToolCall, hs, ht]
          | obj o => simp [CustomToolService.handleCustomToolCall, hs, ht]
          | arr a => simp [CustomToolService.handleCustomToolCall, hs, ht]
      | num n => simp at hserver
      | boolean b => simp at hserver
      | null => simp at hserver
      | obj o => simp at hserver
      | arr a => simp at hserver
  · intro server tool hserver htool hmap
    unfold lookupStringField at hserver htool
    cases hs : mapGet fields "server" with
    | none => rw [hs] at hserver; simp at hserver
    | some v =>
      rw [hs] at hserver
      cases v with
      | str s =>
        simp only [Option.some.injEq] at hserver
        subst hserver
        cases ht : mapGet fields "tool" with
        | none => rw [ht] at htool; simp at htool
        | some w =>
          rw [ht] at htool
          cases w with
          | str s2 =>
            simp only [Option.some.injEq] at htool
            subst htool
            simp [CustomToolService.handleCustomToolCall, hs, ht, hmap]
          | num n => simp at htool
          | boolean b => simp at htool
          | null => simp at htool
          | obj o => simp at htool
          | arr a => simp at htool
      | num n => simp at hserver
      | boolean b => simp at hserver
      | null => simp at hserver
      | obj o => simp at hserver
      | arr a => simp at hserver
  · intro server tool client hserver htool hmap
    unfold lookupStringField at hserver htool
    cases hs : mapGet fields "server" with
    | none => rw [hs] at hserver; simp at hserver
    | some v =>
      rw [hs] at hserver
      cases v with
      | str s =>
        simp only [Option.some.injEq] at hserver
        subst hserver
        cases ht : mapGet fields "tool" with
        | none => rw [ht] at htool; simp at htool
        | some w =>
          rw [ht] at htool
          cases w with
          | str s2 =>
            simp only [Option.some.injEq] at htool
            subst htool
            simp [CustomToolService.handleCustomToolCall, hs, ht, hmap]
          | num n => simp at htool
          | boolean b => simp at htool
          | null => simp at htool
          | obj o => simp at htool
          | arr a => simp at htool
      | num n => simp at hserver
      | boolean b => simp at hserver
      | null => simp at hserver
      | obj o => simp at hserver
      | arr a => simp at hserver

/-- C8 witness: a well formed composite call is dispatched with its args
object and progress token. -/
theorem c8_composite_call_contract_witness :
    CustomToolService.handleCustomToolCall "C"
        (some [("server", .str "S"), ("tool", .str "t1"),
               ("args", .obj [("x", .num 1)])])
        (some (.num 7)) [("C:S:t1", ⟨"S", 3⟩)]
      = .ok { client := ⟨"S", 3⟩, callName := "t1",
              arguments := .obj [("x", .num 1)],
              progressToken := some (.num 7) } :=
  (c8_composite_call_contract "C"
      [("server", .str "S"), ("tool", .str "t1"), ("args", .obj [("x", .num 1)])]
      (some (.num 7)) [("C:S:t1", ⟨"S", 3⟩)]).2.2.2.2 "S" "t1" ⟨"S", 3⟩
    (by decide) (by decide) (by decide)

theorem mapGet_rewriteValues (m : List (String × ConnectedClient)) (s : String)
    (nc : ConnectedClient) (k : String) :
    mapGet (m.map (fun p => if p.2.name == s then (p.1, nc) else p)) k
      = (mapGet m k).map (fun c => if c.name == s then nc else c) := by
  simp only [beq_iff_eq]
  induction m with
  | nil => simp [mapGet]
  | cons p rest ih =>
    by_cases hk : p.1 = k
    · by_cases hs : p.2.name = s <;> simp [mapGet_cons, beq_iff_eq, hk, hs]
    · by_cases hs : p.2.name = s <;> simp [mapGet_cons, beq_iff_eq, hk, hs, ih]

/-- updateConnectedClient of unnamed/part_022 lines 180 to 218: remove the
registered handle carrying the given server name, add the new handle, and
rewrite every entry of the four key spaces whose stored handle carries that
name to point at the new handle. -/
def ClientMaps.updateConnectedClient (m : ClientMaps) (serverName : String)
    (newClient : ConnectedClient) : ClientMaps :=
  let afterDelete :=
    match m.getClientByName serverName with
    | some oldClient => m.connectedClients.erase oldClient
    | none => m.connectedClients
  let clients :=
    if newClient ∈ afterDelete then afterDelete else afterDelete ++ [newClient]
  { toolToClientMap :=
      m.toolToClientMap.map (fun p => if p.2.name == serverName then (p.1, newClient) else p),
    customToolToClientMap :=
      m.customToolToClientMap.map (fun p => if p.2.name == serverName then (p.1, newClient) else p),
    resourceToClientMap :=
      m.resourceToClientMap.map (fun p => if p.2.name == serverName then (p.1, newClient) else p),
    promptToClientMap :=
      m.promptToClientMap.map (fun p => if p.2.name == serverName then (p.1, newClient) else p),
    connectedClients := clients }

/-- C5: after updateConnectedClient, in every one of the four key spaces
each entry whose stored handle carried the backend name points at the new
handle while every other entry is unchanged (stated pointwise through get),
the registry resolves the name to the new handle and no longer contains the
old handle, and every other registered handle survives. The hypotheses say
the registry is a set (no duplicates) holding exactly one handle under the
backend name, and that the restart produced a fresh handle value. -/
theorem c5_replace_backend (m : ClientMaps) (serverName : String)
    (oldClient newClient : ConnectedClient)
    (hfind : m.getClientByName serverName = some oldClient)
    (hnew : newClient.name = serverName)
    (hnodup : m.connectedClients.Nodup)
    (huniq : ∀ c ∈ m.connectedClients, c.name = serverName → c = oldClient)
    (hne : oldClient ≠ newClient) :
    (∀ k, mapGet (m.updateConnectedClient serverName newClient).toolToClientMap k
        = (mapGet m.toolToClientMap k).map
            (fun c => if c.name == serverName then newClient else c))
  ∧ (∀ k, mapGet (m.updateConnectedClient serverName newClient).customToolToClientMap k
        = (mapGet m.customToolToClientMap k).map
            (fun c => if c.name == serverName then newClient else c))
  ∧ (∀ k, mapGet (m.updateConnectedClient serverName newClient).resourceToClientMap k
        = (mapGet m.resourceToClientMap k).map
            (fun c => if c.name == serverName then newClient else c))
  ∧ (∀ k, mapGet (m.updateConnectedClient serverName newClient).promptToClientMap k
        = (mapGet m.promptToClientMap k).map
            (fun c => if c.name == serverName then newClient else c))
  ∧ (m.updateConnectedClient serverName newClient).getClientByName serverName
      = some newClient
  ∧ oldClient ∉ (m.updateConnectedClient serverName newClient).connectedClients
  ∧ ∀ c ∈ m.connectedClients, c ≠ oldClient →
      c ∈ (m.updateConnectedClient serverName newClient).connectedClients := by
  have hnotmem : newClient ∉ m.connectedClients.erase oldClient := by
    intro hmem
    have hmem2 : newClient ∈ m.connectedClients := List.mem_of_mem_erase hmem
    exact hne (huniq newClient hmem2 hnew).symm
  have hclients : (m.updateConnectedClient serverName newClient).connectedClients
      = m.connectedClients.erase oldClient ++ [newClient] := by
    simp only [ClientMaps.updateConnectedClient, hfind]
    rw [if_neg hnotmem]
  refine ⟨?_, ?_, ?_, ?_, ?_, ?_, ?_⟩
  · intro k
    exact mapGet_rewriteValues m.toolToClientMap serverName newClient k
  · intro k
    exact mapGet_rewriteValues m.customToolToClientMap serverName newClient k
  · intro k
    exact mapGet_rewriteValues m.resourceToClientMap serverName newClient k
  · intro k
    exact mapGet_rewriteValues m.promptToClientMap serverName newClient k
  · unfold ClientMaps.getClientByName
    rw [hclients, List.find?_append]
    have h1 : (m.connectedClients.erase oldClient).find?
        (fun c => c.name == serverName) = none := by
      rw [List.find?_eq_none]
      intro x hx hpx
      have hxname : x.name = serverName := by simpa using hpx
      have hxmem : x ∈ m.connectedClients := List.mem_of_mem_erase hx
      have hxold : x = oldClient := huniq x hxmem hxname
      subst hxold
      exact (hnodup.mem_erase_iff.mp hx).1 rfl
    rw [h1]
    simp [List.find?, hnew]
  · rw [hclients]
    intro hmem
    rcases List.mem_append.mp hmem with h1 | h2
    · exact (hnodup.mem_erase_iff.mp h1).1 rfl
    · exact hne (List.mem_singleton.mp h2)
  · intro c hc hcold
    rw [hclients]
    exact List.mem_append.mpr (Or.inl ((List.mem_erase_of_ne hcold).mpr hc))

def c5old : ConnectedClient := ⟨"S", 0⟩

def c5new : ConnectedClient := ⟨"S", 1⟩

def c5other : ConnectedClient := ⟨"T", 5⟩

def c5maps : ClientMaps :=
  ⟨[("t", c5old), ("u", c5other)], [("r", c5old)], [("p", c5old)],
    [("ck", c5old)], [c5old, c5other]⟩

/-- C5 witness. -/
theorem c5_replace_backend_witness :
    mapGet (c5maps.updateConnectedClient "S" c5new).toolToClientMap "t" = some c5new
  ∧ (c5maps.updateConnectedClient "S" c5new).getClientByName "S" = some c5new
  ∧ c5old ∉ (c5maps.updateConnectedClient "S" c5new).connectedClients := by
  have h := c5_replace_backend c5maps "S" c5old c5new (by decide) (by decide)
    (by decide) (by decide) (by decide)
  refine ⟨?_, h.2.2.2.2.1, h.2.2.2.2.2.1⟩
  rw [h.1 "t"]
  decide

/-- getExposedToolInfo of unnamed/part_009 lines 28 to 51, loop part: the
first allow list entry matching the original tool name decides exposure,
a renamed entry also yielding the exposed name. -/
def getExposedToolInfoGo (toolName : String) :
    List ExposedToolEntry → Bool × Option String
  | [] => (false, none)
  | .plain n :: rest =>
    if n = toolName then (true, none) else getExposedToolInfoGo toolName rest
  | .renamed o e :: rest =>
    if o = toolName then (true, some e) else getExposedToolInfoGo toolName rest

/-- getExposedToolInfo of unnamed/part_009 lines 28 to 51: an absent or
empty allow list exposes nothing. -/
def getExposedToolInfo (toolName : String)
    (exposedTools : Option (List ExposedToolEntry)) : Bool × Option String :=
  match exposedTools with
  | none => (false, none)
  | some ets => getExposedToolInfoGo toolName ets

/-- A tool surviving the filterTools of unnamed/part_009: the entry (with
its public name) plus the internal originalName field set when the entry
was renamed. -/
structure FilteredTool where
  tool : Tool
  originalName : Option String
deriving DecidableEq, Repr

/-- The per tool body of the allow list branch of filterTools in
unnamed/part_009 lines 75 to 92 (the map callback): drop an unexposed tool,
rename an exposed tool when its entry carries a nonempty exposed name
(JavaScript truthiness) remembering the original name, keep it unchanged
otherwise. -/
def ToolHandlers.exposedEntry (ets : List ExposedToolEntry) (t : Tool) :
    Option FilteredTool :=
  match getExposedToolInfo t.name (some ets) with
  | (false, _) => none
  | (true, some e) =>
    if e = "" then some ⟨t, none⟩
    else some ⟨{ t with name := e }, some t.name⟩
  | (true, none) => some ⟨t, none⟩

/-- filterTools of unnamed/part_009 lines 61 to 102: with an allow list
present, keep exactly the exposed tools with renaming applied (the map then
filter of the source equals this filterMap); with only a deny list, drop
its members; otherwise pass everything through. -/
def ToolHandlers.filterTools (tools : List Tool)
    (serverConfig : Option ServerConfig) : List FilteredTool :=
  match serverConfig with
  | none => tools.map (fun t => ⟨t, none⟩)
  | some cfg =>
    match cfg.exposedTools with
    | some ets => tools.filterMap (ToolHandlers.exposedEntry ets)
    | none =>
      match cfg.hiddenTools with
      | some hts =>
        (tools.filter (fun t => !(hts.contains t.name))).map (fun t => ⟨t, none⟩)
      | none => tools.map (fun t => ⟨t, none⟩)

/-- The state written by the per backend registration loop of
handleListToolsRequest in unnamed/part_009 lines 144 to 171: the catalog
entries produced so far, the tool key space, and the toolMappings side
table stored on the client. -/
structure DiscoveryRegistration where
  catalog : List Tool
  toolMap : List (String × ConnectedClient)
  toolMappings : List (String × String)
deriving DecidableEq, Repr

/-- One step of the registration loop (unnamed/part_009 lines 154 to 170):
register the public name in the tool key space, record the original name
when the tool was renamed, and append the entry with the provenance
prefixed description. -/
def registerStep (connectedClient : ConnectedClient)
    (st : DiscoveryRegistration) (ft : FilteredTool) : DiscoveryRegistration :=
  { catalog := st.catalog ++
      [{ ft.tool with description :=
          "[" ++ connectedClient.name ++ "] " ++ ft.tool.description }],
    toolMap := mapSet st.toolMap ft.tool.name connectedClient,
    toolMappings :=
      match ft.originalName with
      | some o => mapSet st.toolMappings ft.tool.name o
      | none => st.toolMappings }

/-- The registration loop of handleListToolsRequest in unnamed/part_009
lines 144 to 171 for one backend: filter and rename the fetched tools, then
fold the registration step over the survivors. -/
def registerClientTools (connectedClient : ConnectedClient) (tools : List Tool)
    (serverConfig : Option ServerConfig) (st : DiscoveryRegistration) :
    DiscoveryRegistration :=
  (ToolHandlers.filterTools tools serverConfig).foldl
    (registerStep connectedClient) st

theorem exposedEntry_single_renamed_pos (A B : String) (t : Tool)
    (h : t.name = A) (hB : B ≠ "") :
    ToolHandlers.exposedEntry [.renamed A B] t
      = some ⟨{ t with name := B }, some t.name⟩ := by
  simp [ToolHandlers.exposedEntry, getExposedToolInfo, getExposedToolInfoGo,
    h, hB]

theorem exposedEntry_single_renamed_neg (A B : String) (t : Tool)
    (h : ¬ (t.name = A)) :
    ToolHandlers.exposedEntry [.renamed A B] t = none := by
  have h2 : ¬ (A = t.name) := fun hc => h hc.symm
  simp [ToolHandlers.exposedEntry, getExposedToolInfo, getExposedToolInfoGo, h2]

theorem filterTools_single_renamed (A B : String) (hB : B ≠ "") (tools : List Tool) :
    ToolHandlers.filterTools tools (some ⟨some [.renamed A B], none⟩)
      = (tools.filter (fun t => t.name == A)).map
          (fun t => ⟨{ t with name := B }, some t.name⟩) := by
  simp only [ToolHandlers.filterTools]
  induction tools with
  | nil => rfl
  | cons t rest ih =>
    rw [List.filterMap_cons, List.filter_cons]
    by_cases h : t.name = A
    · rw [exposedEntry_single_renamed_pos A B t h hB, ih]
      have hcond : (t.name == A) = true := by simp [h]
      rw [hcond]
      simp
    · rw [exposedEntry_single_renamed_neg A B t h, ih]
      have hcond : (t.name == A) = false := by simp [h]
      rw [hcond]
      simp

theorem register_foldl_catalog (c : ConnectedClient) (L : List FilteredTool) :
    ∀ st, (L.foldl (registerStep c) st).catalog
      = st.catalog ++ L.map (fun ft =>
          { ft.tool with description :=
              "[" ++ c.name ++ "] " ++ ft.tool.description }) := by
  induction L with
  | nil => intro st; simp
  | cons ft rest ih =>
    intro st
    rw [List.foldl_cons, ih]
    simp [registerStep, List.append_assoc]

theorem register_foldl_toolMap (c : ConnectedClient) (B : String) :
    ∀ L : List FilteredTool, (∀ ft ∈ L, ft.tool.name = B) → L ≠ [] →
    ∀ st, mapGet ((L.foldl (registerStep c) st).toolMap) B = some c := by
  intro L
  induction L with
  | nil => intro _ hne; cases hne rfl
  | cons ft rest ih =>
    intro hall _ st
    cases hrest : rest with
    | nil =>
      subst hrest
      have hname : ft.tool.name = B := hall ft (by simp)
      simp only [List.foldl_cons, List.foldl_nil, registerStep, hname]
      exact mapGet_set_self st.toolMap B c
    | cons ft2 rest2 =>
      subst hrest
      rw [List.foldl_cons]
      exact ih (fun x hx => hall x (List.mem_cons_of_mem ft hx)) (by simp)
        (registerStep c st ft)

theorem register_foldl_toolMappings (c : ConnectedClient) (B A : String) :
    ∀ L : List FilteredTool,
      (∀ ft ∈ L, ft.tool.name = B ∧ ft.originalName = some A) → L ≠ [] →
    ∀ st, mapGet ((L.foldl (registerStep c) st).toolMappings) B = some A := by
  intro L
  induction L with
  | nil => intro _ hne; cases hne rfl
  | cons ft rest ih =>
    intro hall _ st
    cases hrest : rest with
    | nil =>
      subst hrest
      have hname : ft.tool.name = B := (hall ft (by simp)).1
      have horig : ft.originalName = some A := (hall ft (by simp)).2
      simp only [List.foldl_cons, List.foldl_nil, registerStep, hname, horig]
      exact mapGet_set_self st.toolMappings B A
    | cons ft2 rest2 =>
      subst hrest
      rw [List.foldl_cons]
      exact ih (fun x hx => (hall x (List.mem_cons_of_mem ft hx))) (by simp)
        (registerStep c st ft)

/-- C3: for a backend configured with the single allow list entry renaming
original A to exposed B and offering a tool named A, one discovery pass
produces a catalog carrying an entry named B and none named A, and a call
to the public name B resolves to that backend and dispatches the backend
request under the original name A. The hypotheses keep the two names
distinct and nonempty and the backend distinct from the composite
dispatcher. -/
theorem c3_rename_remap_roundtrip (A B : String) (client : ConnectedClient)
    (tools : List Tool) (hA : A ≠ "") (hB : B ≠ "") (hAB : A ≠ B)
    (hcustom : client.name ≠ "custom") (hmem : A ∈ tools.map Tool.name) :
    B ∈ (registerClientTools client tools (some ⟨some [.renamed A B], none⟩)
          ⟨[], [], []⟩).catalog.map Tool.name
  ∧ A ∉ (registerClientTools client tools (some ⟨some [.renamed A B], none⟩)
          ⟨[], [], []⟩).catalog.map Tool.name
  ∧ handleToolCall B none none
      (registerClientTools client tools (some ⟨some [.renamed A B], none⟩)
        ⟨[], [], []⟩).toolMap
      []
      (fun c => if c = client then
        (registerClientTools client tools (some ⟨some [.renamed A B], none⟩)
          ⟨[], [], []⟩).toolMappings
        else [])
      (fun n => if n = client.name then some ⟨some [.renamed A B], none⟩ else none)
      = .ok { client := client, callName := A, arguments := .obj [],
              progressToken := none } := by
  have hfilter := filterTools_single_renamed A B hB tools
  have hreg : registerClientTools client tools (some ⟨some [.renamed A B], none⟩)
      ⟨[], [], []⟩
      = ((tools.filter (fun t => t.name == A)).map
          (fun t => (⟨{ t with name := B }, some t.name⟩ : FilteredTool))).foldl
          (registerStep client) ⟨[], [], []⟩ := by
    unfold registerClientTools
    rw [hfilter]
  obtain ⟨t, ht, htA⟩ := List.mem_map.mp hmem
  have htf : t ∈ tools.filter (fun t => t.name == A) :=
    List.mem_filter.mpr ⟨ht, by simp [htA]⟩
  have hft : (⟨{ t with name := B }, some t.name⟩ : FilteredTool)
      ∈ (tools.filter (fun t => t.name == A)).map
          (fun t => (⟨{ t with name := B }, some t.name⟩ : FilteredTool)) :=
    List.mem_map.mpr ⟨t, htf, rfl⟩
  have hLne : (tools.filter (fun t => t.name == A)).map
      (fun t => (⟨{ t with name := B }, some t.name⟩ : FilteredTool)) ≠ [] := by
    intro hL
    rw [hL] at hft
    simp at hft
  have hall1 : ∀ ft ∈ (tools.filter (fun t => t.name == A)).map
      (fun t => (⟨{ t with name := B }, some t.name⟩ : FilteredTool)),
      ft.tool.name = B := by
    intro ft hmem2
    obtain ⟨u, hu, rfl⟩ := List.mem_map.mp hmem2
    rfl
  have hall2 : ∀ ft ∈ (tools.filter (fun t => t.name == A)).map
      (fun t => (⟨{ t with name := B }, some t.name⟩ : FilteredTool)),
      ft.tool.name = B ∧ ft.originalName = some A := by
    intro ft hmem2
    obtain ⟨u, hu, rfl⟩ := List.mem_map.mp hmem2
    have huA : u.name = A := by simpa using (List.mem_filter.mp hu).2
    exact ⟨rfl, by simp [huA]⟩
  have hmapB : mapGet (registerClientTools client tools
      (some ⟨some [.renamed A B], none⟩) ⟨[], [], []⟩).toolMap B = some client := by
    rw [hreg]
    exact register_foldl_toolMap client B _ hall1 hLne ⟨[], [], []⟩
  have hmappingB : mapGet (registerClientTools client tools
      (some ⟨some [.renamed A B], none⟩) ⟨[], [], []⟩).toolMappings B = some A := by
    rw [hreg]
    exact register_foldl_toolMappings client B A _ hall2 hLne ⟨[], [], []⟩
  have hcat : (registerClientTools client tools
      (some ⟨some [.renamed A B], none⟩) ⟨[], [], []⟩).catalog
      = ((tools.filter (fun t => t.name == A)).map
          (fun t => (⟨{ t with name := B }, some t.name⟩ : FilteredTool))).map
          (fun ft => { ft.tool with description :=
              "[" ++ client.name ++ "] " ++ ft.tool.description }) := by
    rw [hreg]
    rw [register_foldl_catalog client _ ⟨[], [], []⟩]
    rfl
  refine ⟨?_, ?_, ?_⟩
  · rw [hcat]
    exact List.mem_map.mpr ⟨_, List.mem_map.mpr ⟨_, hft, rfl⟩, rfl⟩
  · rw [hcat]
    intro hAmem
    obtain ⟨x, hx, hxA⟩ := List.mem_map.mp hAmem
    obtain ⟨ft, hft2, rfl⟩ := List.mem_map.mp hx
    obtain ⟨u, hu, rfl⟩ := List.mem_map.mp hft2
    exact hAB hxA.symm
  · simp [handleToolCall, hmapB, hcustom, hmappingB,
      ToolService.validateToolAccess, ToolService.executeToolCall, jsOrString,
      exposedOriginalNames, hA]

/-- C3 witness. -/
theorem c3_rename_remap_roundtrip_witness :
    handleToolCall "echoF2" none none
      (registerClientTools ⟨"F2", 1⟩ [⟨"echo", "d"⟩]
        (some ⟨some [.renamed "echo" "echoF2"], none⟩) ⟨[], [], []⟩).toolMap
      []
      (fun c => if c = ⟨"F2", 1⟩ then
        (registerClientTools ⟨"F2", 1⟩ [⟨"echo", "d"⟩]
          (some ⟨some [.renamed "echo" "echoF2"], none⟩) ⟨[], [], []⟩).toolMappings
        else [])
      (fun n => if n = "F2" then
        some ⟨some [.renamed "echo" "echoF2"], none⟩ else none)
      = .ok { client := ⟨"F2", 1⟩, callName := "echo", arguments := .obj [],
              progressToken := none } :=
  (c3_rename_remap_roundtrip "echo" "echoF2" ⟨"F2", 1⟩ [⟨"echo", "d"⟩]
      (by decide) (by decide) (by decide) (by decide) (by decide)).2.2
